import Mathlib

/-!
Verification of the game-state core of the mini FPS block
(`src/src/block.tsx`): score/ammo/projectile model, target hit cooldown,
and the completion notification effect.

Vectors are embedded over the real numbers; the source's floating-point
`THREE.Vector3` arithmetic is modelled exactly (componentwise add, scalar
multiply, Euclidean length via `Real.sqrt`, `normalize` dividing by the
length — for the zero vector both the source, which divides by
`length || 1`, and this model return the zero vector).
-/

/-- Componentwise 3D vector over ℝ, embedding `THREE.Vector3`. -/
@[ext]
structure Vec3 where
  x : ℝ
  y : ℝ
  z : ℝ

def Vec3.add (a b : Vec3) : Vec3 := ⟨a.x + b.x, a.y + b.y, a.z + b.z⟩

def Vec3.smul (c : ℝ) (v : Vec3) : Vec3 := ⟨c * v.x, c * v.y, c * v.z⟩

/-- Euclidean length, embedding `THREE.Vector3.length()`. -/
noncomputable def Vec3.length (v : Vec3) : ℝ :=
  Real.sqrt (v.x ^ 2 + v.y ^ 2 + v.z ^ 2)

/-- Embeds `a.distanceTo(b)`. -/
noncomputable def Vec3.distanceTo (a b : Vec3) : ℝ :=
  Vec3.length ⟨a.x - b.x, a.y - b.y, a.z - b.z⟩

/-- Embeds `v.normalize()` (division by the length; the zero vector maps
to itself, as in the source where the divisor is `length || 1`). -/
noncomputable def Vec3.normalize (v : Vec3) : Vec3 :=
  Vec3.smul (1 / v.length) v

/-- A fired bullet, embedding the elements of `GameState.bullets`
(`{id, position, direction}`) together with the `startPosition` that the
`Bullet` component captures at creation (`origin`): the bullet mounts at
its creation position, so `origin` equals the position at creation. -/
@[ext]
structure Projectile where
  id : ℕ
  origin : Vec3
  position : Vec3
  direction : Vec3

/-- The authoritative game state of `block.tsx`: `score`, `ammo`,
`bullets`, plus the bullet id counter (`bulletIdCounter` ref) and the
per-enemy `hit` flags (the `hit` local state of each `Enemy`;
`true` = the target is in its 1000 ms hit cooldown). -/
structure GameState where
  score : ℤ
  ammo : ℤ
  bullets : List Projectile
  nextId : ℕ
  hitFlags : ℕ → Bool

/-- Initial state of `Block` (lines 260-264): score 0, ammo 30, no
bullets; the id counter starts at 0 and every enemy starts not hit. -/
def initState : GameState :=
  { score := 0, ammo := 30, bullets := [], nextId := 0, hitFlags := fun _ => false }

/-- Projectile speed, units per second (line 62). -/
def speed : ℝ := 50

/-- Maximum projectile range (line 63). -/
def maxDistance : ℝ := 100

/-- Embeds `shoot` (lines 100-118): no-op when `ammo <= 0`; otherwise
decrement `ammo`, take a fresh id from the counter, and append a bullet
whose position is the camera position and whose direction is the
normalized camera forward vector. -/
noncomputable def shoot (camPos camForward : Vec3) (s : GameState) : GameState :=
  if s.ammo ≤ 0 then s
  else
    { s with
      ammo := s.ammo - 1
      bullets := s.bullets ++ [⟨s.nextId, camPos, camPos, camForward.normalize⟩]
      nextId := s.nextId + 1 }

/-- Embeds `removeBullet` (lines 120-125): filter out the bullet with the
given id. -/
def removeBullet (bulletId : ℕ) (s : GameState) : GameState :=
  { s with bullets := s.bullets.filter (fun b => b.id ≠ bulletId) }

/-- Embeds the hit path (lines 28-36 and 127-129): an enemy click is
ignored while its `hit` flag is set; otherwise the flag is set (entering
the 1000 ms cooldown) and `handleEnemyHit` adds 10 to the score. The
boolean reports whether the hit was accepted. -/
def registerHit (targetId : ℕ) (s : GameState) : GameState × Bool :=
  if s.hitFlags targetId then (s, false)
  else
    ({ s with
        score := s.score + 10
        hitFlags := fun t => if t = targetId then true else s.hitFlags t },
      true)

/-- Embeds the `setTimeout` callback (lines 32-34): after 1000 ms the
enemy's `hit` flag is cleared. -/
def cooldownExpired (targetId : ℕ) (s : GameState) : GameState :=
  { s with hitFlags := fun t => if t = targetId then false else s.hitFlags t }

/-- Embeds `reload` (lines 131-133): unconditionally set `ammo := 30`. -/
def reload (s : GameState) : GameState :=
  { s with ammo := 30 }

/-- One frame step of a single bullet (lines 66-68):
`position += direction * speed * delta`. -/
noncomputable def tickBullet (delta : ℝ) (p : Projectile) : Projectile :=
  { p with position := p.position.add (p.direction.smul (speed * delta)) }

/-- The per-frame tick applied to the bullet with the given id in the
state (each `Bullet` component updates only its own position). -/
noncomputable def tick (bulletId : ℕ) (delta : ℝ) (s : GameState) : GameState :=
  { s with bullets := s.bullets.map (fun p => if p.id = bulletId then tickBullet delta p else p) }

/-- Iterated ticks of one bullet with the given per-frame deltas. -/
noncomputable def tickBullets : List ℝ → Projectile → Projectile
  | [], p => p
  | d :: ds, p => tickBullets ds (tickBullet d p)

/-- Embeds the expiry test (line 70): the bullet has travelled beyond
`maxDistance` from its start position, so `onRemove` fires. -/
noncomputable def bulletExpired (p : Projectile) : Prop :=
  p.position.distanceTo p.origin > maxDistance

/-- The discrete events that mutate the game state. -/
inductive Op where
  | shoot (camPos camForward : Vec3)
  | reload
  | tick (bulletId : ℕ) (delta : ℝ)
  | removeBullet (bulletId : ℕ)
  | registerHit (targetId : ℕ)
  | cooldownExpired (targetId : ℕ)

noncomputable def applyOp (op : Op) (s : GameState) : GameState :=
  match op with
  | .shoot camPos camForward => shoot camPos camForward s
  | .reload => reload s
  | .tick bulletId delta => tick bulletId delta s
  | .removeBullet bulletId => removeBullet bulletId s
  | .registerHit targetId => (registerHit targetId s).1
  | .cooldownExpired targetId => cooldownExpired targetId s

/-- Run a sequence of events from a state. -/
noncomputable def run : List Op → GameState → GameState
  | [], s => s
  | op :: ops, s => run ops (applyOp op s)

/-- The shape of the message posted on completion (lines 269-270). -/
structure CompletionMsg where
  type : String
  blockId : String
  completed : Bool
  score : ℤ
  maxScore : ℤ
deriving DecidableEq

/-- The two recipient scopes of the posted message: the current window
and its embedding parent window. -/
inductive Scope where
  | self
  | parent
deriving DecidableEq

def completionMsg (score : ℤ) : CompletionMsg :=
  { type := "BLOCK_COMPLETION", blockId := "mini-fps-game", completed := true
    score := score, maxScore := 50 }

/-- Embeds the body of the `useEffect` at lines 267-272, which runs at
each change of `gameState.score`: when the score is at least 50 the
completion message is posted to both the current window and the parent
window; otherwise nothing is posted. There is no once-only guard in the
source. -/
def completionEffect (score : ℤ) : List (Scope × CompletionMsg) :=
  if 50 ≤ score then
    [(Scope.self, completionMsg score), (Scope.parent, completionMsg score)]
  else []

/-- Number of completion notifications emitted across a sequence of
score changes (one notification = one run of the effect that posts). -/
def notificationCount (scores : List ℤ) : ℕ :=
  scores.countP (fun v => !(completionEffect v).isEmpty)

/-! ## Claim theorems: reload, removeBullet, frame conditions, completion -/

/-- C6: for every state, `reload` sets `ammo` to exactly 30 (a hard
reset, not additive), leaves every other state component unchanged, and
is total (it is a plain function, so it never fails). -/
theorem c6_reload_spec (s : GameState) :
    (reload s).ammo = 30 ∧ (reload s).score = s.score ∧
    (reload s).bullets = s.bullets ∧ (reload s).nextId = s.nextId ∧
    (reload s).hitFlags = s.hitFlags :=
  ⟨rfl, rfl, rfl, rfl, rfl⟩

/-- C8: `removeBullet` with an absent id is a no-op returning the state
unchanged; after removal no bullet with the given id remains; and
removing the same id twice yields the same state as removing it once. -/
theorem c8_removeBullet_spec (bulletId : ℕ) (s : GameState) :
    (bulletId ∉ s.bullets.map Projectile.id → removeBullet bulletId s = s) ∧
    (∀ p ∈ (removeBullet bulletId s).bullets, p.id ≠ bulletId) ∧
    removeBullet bulletId (removeBullet bulletId s) = removeBullet bulletId s := by
  refine ⟨?_, ?_, ?_⟩
  · intro h
    have hfil : s.bullets.filter (fun b => b.id ≠ bulletId) = s.bullets := by
      apply List.filter_eq_self.mpr
      intro b hb
      have hbid : b.id ≠ bulletId := by
        intro hbid
        exact h (hbid ▸ List.mem_map_of_mem Projectile.id hb)
      simp [hbid]
    show { s with bullets := s.bullets.filter (fun b => b.id ≠ bulletId) } = s
    rw [hfil]
  · intro p hp
    have := (List.mem_filter.mp hp).2
    simpa using this
  · simp [removeBullet, List.filter_filter]

/-- C10: `shoot` never changes the score; `registerHit` never changes
ammo or the bullet list; `removeBullet` never changes score or ammo and
keeps the surviving bullets in their original relative order (the result
is a sublist of the original list). -/
theorem c10_frame_conditions (camPos camForward : Vec3) (targetId bulletId : ℕ)
    (s : GameState) :
    (shoot camPos camForward s).score = s.score ∧
    (registerHit targetId s).1.ammo = s.ammo ∧
    (registerHit targetId s).1.bullets = s.bullets ∧
    (removeBullet bulletId s).score = s.score ∧
    (removeBullet bulletId s).ammo = s.ammo ∧
    (removeBullet bulletId s).bullets.Sublist s.bullets := by
  refine ⟨?_, ?_, ?_, rfl, rfl, List.filter_sublist _⟩
  · unfold shoot
    split <;> rfl
  · unfold registerHit
    split <;> rfl
  · unfold registerHit
    split <;> rfl

/-- C1 counterexample: the `useEffect` at lines 267-272 has no once-only
guard, so the score-change sequence 40, 50, 60 emits the completion
notification twice (at 50 and again at 60), not once as claimed. -/
theorem c1_counterexample :
    notificationCount [40, 50, 60] = 2 ∧ notificationCount [40, 50, 60] ≠ 1 := by
  constructor <;> decide

/-- C1 amended: a completion notification is emitted at every score
change whose new value is at least 50 — in particular the first time the
score reaches 50 — and every further score change at or past 50 emits
again; the number of notifications equals the number of score changes
with value at least 50. -/
theorem c1_amended (scores : List ℤ) :
    notificationCount scores = (scores.filter (fun v => 50 ≤ v)).length := by
  unfold notificationCount
  rw [List.countP_eq_length_filter]
  congr 1
  apply List.filter_congr
  intro v _
  by_cases h : (50 : ℤ) ≤ v <;> simp [completionEffect, h]

/-- C7: whenever the completion effect emits at all, it emits exactly
the message `{type: BLOCK_COMPLETION, blockId: mini-fps-game, completed:
true, score: current score, maxScore: 50}`, and it delivers that same
message to both recipient scopes (the current window and its parent). -/
theorem c7_completion_shape (score : ℤ) (h : completionEffect score ≠ []) :
    completionEffect score =
      [(Scope.self,
        { type := "BLOCK_COMPLETION", blockId := "mini-fps-game",
          completed := true, score := score, maxScore := 50 }),
       (Scope.parent,
        { type := "BLOCK_COMPLETION", blockId := "mini-fps-game",
          completed := true, score := score, maxScore := 50 })] := by
  by_cases h50 : (50 : ℤ) ≤ score
  · simp [completionEffect, completionMsg, h50]
  · simp [completionEffect, h50] at h

theorem c7_completion_shape_witness :
    completionEffect 50 ≠ [] ∧
    completionEffect 50 =
      [(Scope.self,
        { type := "BLOCK_COMPLETION", blockId := "mini-fps-game",
          completed := true, score := 50, maxScore := 50 }),
       (Scope.parent,
        { type := "BLOCK_COMPLETION", blockId := "mini-fps-game",
          completed := true, score := 50, maxScore := 50 })] :=
  ⟨by decide, c7_completion_shape 50 (by decide)⟩

/-! ## Run-level helper lemmas -/

lemma applyOp_ammo_cases (op : Op) (s : GameState) :
    (applyOp op s).ammo = s.ammo ∨
    ((applyOp op s).ammo = s.ammo - 1 ∧ 0 < s.ammo) ∨
    (applyOp op s).ammo = 30 := by
  cases op with
  | shoot camPos camForward =>
      by_cases h : s.ammo ≤ 0
      · left
        show (shoot camPos camForward s).ammo = s.ammo
        unfold shoot
        rw [if_pos h]
      · right; left
        refine ⟨?_, by omega⟩
        show (shoot camPos camForward s).ammo = s.ammo - 1
        unfold shoot
        rw [if_neg h]
  | reload => right; right; rfl
  | tick bulletId delta => left; rfl
  | removeBullet bulletId => left; rfl
  | registerHit targetId =>
      left
      show (registerHit targetId s).1.ammo = s.ammo
      unfold registerHit
      split <;> rfl
  | cooldownExpired targetId => left; rfl

lemma applyOp_score_mono (op : Op) (s : GameState) : s.score ≤ (applyOp op s).score := by
  cases op with
  | shoot camPos camForward =>
      show s.score ≤ (shoot camPos camForward s).score
      unfold shoot
      split
      · exact le_rfl
      · exact le_rfl
  | reload => exact le_rfl
  | tick bulletId delta => exact le_rfl
  | removeBullet bulletId => exact le_rfl
  | registerHit targetId =>
      show s.score ≤ (registerHit targetId s).1.score
      unfold registerHit
      split
      · exact le_rfl
      · show s.score ≤ s.score + 10
        omega
  | cooldownExpired targetId => exact le_rfl

lemma run_ammo_bounds (ops : List Op) (s : GameState)
    (h0 : 0 ≤ s.ammo) (h30 : s.ammo ≤ 30) :
    0 ≤ (run ops s).ammo ∧ (run ops s).ammo ≤ 30 := by
  induction ops generalizing s with
  | nil => exact ⟨h0, h30⟩
  | cons op ops ih =>
      show 0 ≤ (run ops (applyOp op s)).ammo ∧ (run ops (applyOp op s)).ammo ≤ 30
      rcases applyOp_ammo_cases op s with h | ⟨h, hpos⟩ | h <;>
        exact ih (applyOp op s) (by omega) (by omega)

lemma run_score_mono (ops : List Op) (s : GameState) : s.score ≤ (run ops s).score := by
  induction ops generalizing s with
  | nil => exact le_rfl
  | cons op ops ih => exact le_trans (applyOp_score_mono op s) (ih (applyOp op s))

/-- C2: in every state reachable from the initial state by any event
sequence, ammo stays within 0..30 and score stays nonnegative; moreover
every single operation, on any state, leaves the score greater than or
equal to its previous value. -/
theorem c2_state_invariants (ops : List Op) :
    (0 ≤ (run ops initState).ammo ∧ (run ops initState).ammo ≤ 30) ∧
    0 ≤ (run ops initState).score ∧
    ∀ (op : Op) (s : GameState), s.score ≤ (applyOp op s).score := by
  refine ⟨run_ammo_bounds ops initState (by decide) (by decide), ?_, applyOp_score_mono⟩
  exact run_score_mono ops initState

/-! ## Accepted-hit counting and id freshness along a run -/

/-- Number of accepted hits along a run: a `registerHit` counts when the
target's `hit` flag is clear at that moment. -/
noncomputable def acceptedHits : List Op → GameState → ℕ
  | [], _ => 0
  | op :: ops, s =>
      (match op with
       | Op.registerHit targetId => if s.hitFlags targetId then 0 else 1
       | _ => 0) + acceptedHits ops (applyOp op s)

lemma acceptedHits_cons (op : Op) (ops : List Op) (s : GameState) :
    acceptedHits (op :: ops) s =
      (match op with
       | Op.registerHit targetId => if s.hitFlags targetId then 0 else 1
       | _ => 0) + acceptedHits ops (applyOp op s) := rfl

lemma applyOp_score_eq (op : Op) (s : GameState) :
    (applyOp op s).score =
      s.score + (match op with
                 | Op.registerHit targetId => if s.hitFlags targetId then 0 else 10
                 | _ => 0) := by
  cases op with
  | shoot camPos camForward =>
      show (shoot camPos camForward s).score = s.score + 0
      unfold shoot
      split <;> simp
  | reload => simp [applyOp, reload]
  | tick bulletId delta => simp [applyOp, tick]
  | removeBullet bulletId => simp [applyOp, removeBullet]
  | registerHit targetId =>
      show (registerHit targetId s).1.score = _
      unfold registerHit
      by_cases h : s.hitFlags targetId <;> simp [h]
  | cooldownExpired targetId => simp [applyOp, cooldownExpired]

lemma run_score_eq (ops : List Op) (s : GameState) :
    (run ops s).score = s.score + 10 * (acceptedHits ops s : ℤ) := by
  induction ops generalizing s with
  | nil => simp [run, acceptedHits]
  | cons op ops ih =>
      show (run ops (applyOp op s)).score = s.score + 10 * (acceptedHits (op :: ops) s : ℤ)
      rw [ih (applyOp op s), applyOp_score_eq op s, acceptedHits_cons]
      cases op with
      | registerHit targetId =>
          by_cases h : s.hitFlags targetId
          · simp [h]
          · simp [h]
            ring
      | shoot camPos camForward => push_cast; ring
      | reload => push_cast; ring
      | tick bulletId delta => push_cast; ring
      | removeBullet bulletId => push_cast; ring
      | cooldownExpired targetId => push_cast; ring

/-- C9: in every reachable state the score equals 10 times the number of
accepted hits so far, and in particular is a multiple of 10. -/
theorem c9_score_decomposition (ops : List Op) :
    (run ops initState).score = 10 * (acceptedHits ops initState : ℤ) ∧
    (10 : ℤ) ∣ (run ops initState).score := by
  have h : (run ops initState).score = 10 * (acceptedHits ops initState : ℤ) := by
    have := run_score_eq ops initState
    simpa [initState] using this
  exact ⟨h, h ▸ Dvd.intro _ rfl⟩

/-- Ids handed out by accepted shots along a run (the successive values
taken from `bulletIdCounter`). -/
noncomputable def assignedIds : List Op → GameState → List ℕ
  | [], _ => []
  | op :: ops, s =>
      (match op with
       | Op.shoot _ _ => if s.ammo ≤ 0 then [] else [s.nextId]
       | _ => []) ++ assignedIds ops (applyOp op s)

lemma assignedIds_cons (op : Op) (ops : List Op) (s : GameState) :
    assignedIds (op :: ops) s =
      (match op with
       | Op.shoot _ _ => if s.ammo ≤ 0 then [] else [s.nextId]
       | _ => []) ++ assignedIds ops (applyOp op s) := rfl

lemma applyOp_nextId_mono (op : Op) (s : GameState) : s.nextId ≤ (applyOp op s).nextId := by
  cases op with
  | shoot camPos camForward =>
      show s.nextId ≤ (shoot camPos camForward s).nextId
      unfold shoot
      split
      · exact le_rfl
      · exact Nat.le_succ _
  | reload => exact le_rfl
  | tick bulletId delta => exact le_rfl
  | removeBullet bulletId => exact le_rfl
  | registerHit targetId =>
      show s.nextId ≤ (registerHit targetId s).1.nextId
      unfold registerHit
      split <;> exact le_rfl
  | cooldownExpired targetId => exact le_rfl

lemma run_nextId_mono (ops : List Op) (s : GameState) : s.nextId ≤ (run ops s).nextId := by
  induction ops generalizing s with
  | nil => exact le_rfl
  | cons op ops ih => exact le_trans (applyOp_nextId_mono op s) (ih (applyOp op s))

lemma assignedIds_lt (ops : List Op) (s : GameState) :
    ∀ i ∈ assignedIds ops s, i < (run ops s).nextId := by
  induction ops generalizing s with
  | nil => intro i hi; simp [assignedIds] at hi
  | cons op ops ih =>
      intro i hi
      rw [assignedIds_cons] at hi
      have hrun : run (op :: ops) s = run ops (applyOp op s) := rfl
      rcases List.mem_append.mp hi with hhead | htail
      · cases op with
        | shoot camPos camForward =>
            by_cases h : s.ammo ≤ 0
            · simp [h] at hhead
            · simp [h] at hhead
              subst hhead
              have h1 : s.nextId + 1 ≤ (applyOp (Op.shoot camPos camForward) s).nextId := by
                show s.nextId + 1 ≤ (shoot camPos camForward s).nextId
                unfold shoot
                rw [if_neg h]
              have h2 := run_nextId_mono ops (applyOp (Op.shoot camPos camForward) s)
              rw [hrun]
              omega
        | reload => simp at hhead
        | tick bulletId delta => simp at hhead
        | removeBullet bulletId => simp at hhead
        | registerHit targetId => simp at hhead
        | cooldownExpired targetId => simp at hhead
      · rw [hrun]
        exact ih (applyOp op s) i htail

/-- C3: `shoot` with no ammo returns the state unchanged and creates no
bullet; `shoot` with ammo decrements ammo by exactly 1, appends at the
end of the bullet list a projectile whose id is the counter value, whose
origin and position are both the camera position and whose direction is
the normalized camera forward vector, advancing the counter; and the id
a shot takes in any reachable state is distinct from every id assigned
earlier in the run. -/
theorem c3_shoot_spec (camPos camForward : Vec3) (s : GameState) :
    (s.ammo = 0 → shoot camPos camForward s = s) ∧
    (0 < s.ammo →
      shoot camPos camForward s =
        { s with
          ammo := s.ammo - 1
          bullets := s.bullets ++ [⟨s.nextId, camPos, camPos, camForward.normalize⟩]
          nextId := s.nextId + 1 }) ∧
    ∀ ops : List Op, (run ops initState).nextId ∉ assignedIds ops initState := by
  refine ⟨?_, ?_, ?_⟩
  · intro h
    unfold shoot
    rw [if_pos (by omega)]
  · intro h
    unfold shoot
    rw [if_neg (by omega)]
  · intro ops hmem
    exact absurd (assignedIds_lt ops initState _ hmem) (lt_irrefl _)

/-- A state with the ammo exhausted, for concrete evaluation. -/
def emptyAmmoState : GameState :=
  { score := 0, ammo := 0, bullets := [], nextId := 0, hitFlags := fun _ => false }

/-- The forward vector of the initial camera, for concrete evaluation. -/
noncomputable def negZ : Vec3 := ⟨0, 0, -1⟩

theorem c3_shoot_spec_witness :
    (emptyAmmoState.ammo = 0 ∧ shoot negZ negZ emptyAmmoState = emptyAmmoState) ∧
    (0 < initState.ammo ∧
      shoot negZ negZ initState =
        { initState with
          ammo := 29
          bullets := [⟨0, negZ, negZ, negZ.normalize⟩]
          nextId := 1 }) := by
  refine ⟨⟨rfl, (c3_shoot_spec negZ negZ emptyAmmoState).1 rfl⟩, ⟨by decide, ?_⟩⟩
  have h := (c3_shoot_spec negZ negZ initState).2.1 (by decide)
  rw [h]
  rfl

/-- C4: `registerHit` on an idle target adds exactly 10 to the score,
flips that target into cooldown and reports acceptance; on a target in
cooldown it returns the state unchanged with `accepted = false`; and
after `cooldownExpired` the same target accepts a hit again for another
10 points. -/
theorem c4_registerHit_spec (targetId : ℕ) (s : GameState) :
    (s.hitFlags targetId = false →
      (registerHit targetId s).1.score = s.score + 10 ∧
      (registerHit targetId s).1.hitFlags targetId = true ∧
      (registerHit targetId s).2 = true) ∧
    (s.hitFlags targetId = true → registerHit targetId s = (s, false)) ∧
    ((registerHit targetId (cooldownExpired targetId s)).2 = true ∧
     (registerHit targetId (cooldownExpired targetId s)).1.score = s.score + 10) := by
  refine ⟨?_, ?_, ?_⟩
  · intro h
    unfold registerHit
    rw [if_neg (by simp [h])]
    exact ⟨rfl, by simp, rfl⟩
  · intro h
    unfold registerHit
    rw [if_pos h]
  · have hflag : (cooldownExpired targetId s).hitFlags targetId = false := by
      simp [cooldownExpired]
    unfold registerHit
    rw [if_neg (by simp [hflag])]
    exact ⟨rfl, rfl⟩

theorem c4_registerHit_spec_witness :
    (initState.hitFlags 1 = false ∧
      (registerHit 1 initState).1.score = initState.score + 10 ∧
      (registerHit 1 initState).1.hitFlags 1 = true ∧
      (registerHit 1 initState).2 = true) ∧
    ((registerHit 1 initState).1.hitFlags 1 = true ∧
      registerHit 1 (registerHit 1 initState).1 = ((registerHit 1 initState).1, false)) ∧
    ((registerHit 1 (cooldownExpired 1 (registerHit 1 initState).1)).2 = true ∧
     (registerHit 1 (cooldownExpired 1 (registerHit 1 initState).1)).1.score =
       (registerHit 1 initState).1.score + 10) := by
  have h1 := (c4_registerHit_spec 1 initState).1 rfl
  have h2 := (c4_registerHit_spec 1 (registerHit 1 initState).1).2.1 rfl
  have h3 := (c4_registerHit_spec 1 (registerHit 1 initState).1).2.2
  exact ⟨⟨rfl, h1⟩, ⟨rfl, h2⟩, h3⟩

/-! ## Projectile flight -/

lemma Vec3.length_smul (c : ℝ) (v : Vec3) : (Vec3.smul c v).length = |c| * v.length := by
  simp only [Vec3.smul, Vec3.length]
  rw [show (c * v.x) ^ 2 + (c * v.y) ^ 2 + (c * v.z) ^ 2
        = c ^ 2 * (v.x ^ 2 + v.y ^ 2 + v.z ^ 2) by ring,
      Real.sqrt_mul (sq_nonneg c), Real.sqrt_sq_eq_abs]

lemma Vec3.distanceTo_add_self (a d : Vec3) : (a.add d).distanceTo a = d.length := by
  simp only [Vec3.add, Vec3.distanceTo, Vec3.length]
  congr 1
  ring

lemma tickBullets_eq (ds : List ℝ) (p : Projectile) :
    tickBullets ds p =
      { p with position := p.position.add (p.direction.smul (speed * ds.sum)) } := by
  induction ds generalizing p with
  | nil =>
      show p = _
      ext <;> simp [Vec3.add, Vec3.smul]
  | cons d ds ih =>
      show tickBullets ds (tickBullet d p) = _
      rw [ih (tickBullet d p)]
      show ({ p with
              position := (p.position.add (p.direction.smul (speed * d))).add
                (p.direction.smul (speed * ds.sum)) } : Projectile) = _
      ext <;> simp [Vec3.add, Vec3.smul, List.sum_cons] <;> ring

/-- C5: a projectile created at `origin` with a unit-length direction,
ticked with nonnegative per-frame deltas, ends at
`origin + direction * speed * Σ deltas`, and is expired exactly when
`Σ deltas * speed` exceeds 100; the delta list is arbitrary, so the
equivalence also settles every prefix of a longer run. -/
theorem c5_bullet_flight (i : ℕ) (origin dir : Vec3) (ds : List ℝ)
    (hdir : dir.length = 1) (hds : ∀ d ∈ ds, 0 ≤ d) :
    (tickBullets ds ⟨i, origin, origin, dir⟩).position =
      origin.add (dir.smul (speed * ds.sum)) ∧
    (bulletExpired (tickBullets ds ⟨i, origin, origin, dir⟩) ↔ ds.sum * speed > 100) := by
  have hpos := tickBullets_eq ds ⟨i, origin, origin, dir⟩
  have hsum : 0 ≤ ds.sum := List.sum_nonneg hds
  constructor
  · rw [hpos]
  · show (tickBullets ds ⟨i, origin, origin, dir⟩).position.distanceTo
        (tickBullets ds ⟨i, origin, origin, dir⟩).origin > maxDistance ↔ _
    rw [hpos]
    show (origin.add (dir.smul (speed * ds.sum))).distanceTo origin > maxDistance ↔ _
    rw [Vec3.distanceTo_add_self, Vec3.length_smul, hdir, mul_one,
        abs_of_nonneg (mul_nonneg (by norm_num [speed]) hsum), mul_comm]
    exact Iff.rfl

/-- The forward direction of the unrotated camera has unit length. -/
lemma negZ_length : Vec3.length negZ = 1 := by
  show Real.sqrt ((0 : ℝ) ^ 2 + (0 : ℝ) ^ 2 + (-1 : ℝ) ^ 2) = 1
  rw [show ((0 : ℝ) ^ 2 + (0 : ℝ) ^ 2 + (-1 : ℝ) ^ 2) = 1 by norm_num, Real.sqrt_one]

theorem c5_bullet_flight_witness :
    Vec3.length negZ = 1 ∧ (∀ d ∈ ([1, 2] : List ℝ), 0 ≤ d) ∧
    (tickBullets [1, 2] ⟨0, Vec3.mk 0 0 0, Vec3.mk 0 0 0, negZ⟩).position =
      (Vec3.mk 0 0 0).add (negZ.smul (speed * ([1, 2] : List ℝ).sum)) ∧
    (bulletExpired (tickBullets [1, 2] ⟨0, Vec3.mk 0 0 0, Vec3.mk 0 0 0, negZ⟩) ↔
      ([1, 2] : List ℝ).sum * speed > 100) := by
  have h1 : Vec3.length negZ = 1 := negZ_length
  have h2 : ∀ d ∈ ([1, 2] : List ℝ), 0 ≤ d := by norm_num
  have h3 := c5_bullet_flight 0 ⟨0, 0, 0⟩ negZ [1, 2] h1 h2
  exact ⟨h1, h2, h3.1, h3.2⟩

theorem c8_removeBullet_spec_witness :
    (5 ∉ initState.bullets.map Projectile.id ∧ removeBullet 5 initState = initState) ∧
    (∀ p ∈ (removeBullet 5 initState).bullets, p.id ≠ 5) ∧
    removeBullet 5 (removeBullet 5 initState) = removeBullet 5 initState := by
  have h := c8_removeBullet_spec 5 initState
  exact ⟨⟨by simp [initState], h.1 (by simp [initState])⟩, h.2.1, h.2.2⟩
